import Mathlib

/-!
# Verification of the deta_py Deta Base client

A shallow embedding of the core logic of the `deta_py` library:
the TTL inserter (`deta_py/deta_base/utils.py`), the batch putter and the
query path of `DetaBase` (`deta_py/deta_base/base.py`) and of
`AsyncDetaBase` (`deta_py/deta_base/async_base.py`), the update-operation
builder (`deta_py/deta_base/queries.py`), and the credential parser
(`deta_py/utils.py`).

Modelling conventions:
* Python dicts with string keys become association lists in insertion
  order; assignment `d[k] = v` replaces the value in place when the key is
  present and appends otherwise (`dictSet`).
* The HTTP transport becomes an explicit oracle function given as an
  argument: it maps the request body the code would send to the response
  (status code plus parsed JSON fields) the code would read back.
* `datetime` values are modelled by their whole-second epoch offset
  together with the sub-second `microsecond` field; `timestamp()` returns
  an exact rational.  `timedelta` is a signed count of microseconds.
* The ambient clock `datetime.now()` is passed explicitly as a `now`
  argument.
* Numeric Python values are modelled as exact rationals.
-/

namespace DetaPy

/-- A JSON-compatible Python value as far as the claims need it:
numbers are exact rationals, everything else is kept as an opaque string. -/
inductive Val where
  | num (q : ℚ)
  | str (s : String)
deriving DecidableEq

/-- A Python dict with string keys, in insertion order. -/
abbrev Dict (α : Type) := List (String × α)

/-- An item mapping (`dict[str, Any]`). -/
abbrev Item := Dict Val

/-- Python dict assignment `d[k] = v`: replace in place when the key is
present, append otherwise. -/
def dictSet (d : Dict α) (k : String) (v : α) : Dict α :=
  if d.any (fun p => p.1 = k) then
    d.map (fun p => if p.1 = k then (k, v) else p)
  else
    d ++ [(k, v)]

/-- Python `d.update(kvs)`: assign every pair of `kvs` in order. -/
def dictUpdate (d : Dict α) (kvs : Dict α) : Dict α :=
  kvs.foldl (fun acc kv => dictSet acc kv.1 kv.2) d

/-- A `datetime.datetime`, modelled by its whole-second epoch offset and
its `microsecond` field (`0 ≤ microsecond < 1000000` for values produced
by the datetime API). -/
structure DateTime where
  epochSeconds : Int
  microsecond : Nat
deriving DecidableEq

/-- A `datetime.timedelta`, as a signed count of microseconds. -/
structure TimeDelta where
  micros : Int
deriving DecidableEq

/-- `dt.replace(microsecond=m)`. -/
def DateTime.replaceMicrosecond (d : DateTime) (m : Nat) : DateTime :=
  ⟨d.epochSeconds, m⟩

/-- `dt.timestamp()`: exact epoch seconds as a rational. -/
def DateTime.timestamp (d : DateTime) : ℚ :=
  (d.epochSeconds : ℚ) + (d.microsecond : ℚ) / 1000000

/-- Total microseconds of a `datetime` since the epoch. -/
def DateTime.toMicros (d : DateTime) : Int :=
  d.epochSeconds * 1000000 + (d.microsecond : Int)

/-- Rebuild a `datetime` from total microseconds (floor divmod, as Python
normalizes `microsecond` into `[0, 1000000)`). -/
def DateTime.ofMicros (m : Int) : DateTime :=
  ⟨m.fdiv 1000000, (m.fmod 1000000).toNat⟩

/-- `dt + delta` on datetimes. -/
def DateTime.addDelta (d : DateTime) (t : TimeDelta) : DateTime :=
  DateTime.ofMicros (d.toMicros + t.micros)

/-- `timedelta(seconds=s)` for a numeric `s` (Python rounds the value to
whole microseconds). -/
def timedeltaOfSeconds (s : ℚ) : TimeDelta :=
  ⟨round (s * 1000000)⟩

/-- `ExpireAt = Union[datetime, int, float]` (`deta_base/types.py`). -/
inductive ExpireAt where
  | dt (d : DateTime)
  | int (n : Int)
  | float (q : ℚ)
deriving DecidableEq

/-- `ExpireIn = Union[timedelta, int, float]` (`deta_base/types.py`). -/
inductive ExpireIn where
  | td (t : TimeDelta)
  | int (n : Int)
  | float (q : ℚ)
deriving DecidableEq

/-- `ITEMS_BATCH_SIZE = 25` (`deta_base/utils.py`). -/
def ITEMS_BATCH_SIZE : Nat := 25

/-- `TTL_ATTRIBUTE = '__expires'` (`deta_base/utils.py`). -/
def TTL_ATTRIBUTE : String := "__expires"

/-- `HTTPStatus.MULTI_STATUS`. -/
def MULTI_STATUS : Nat := 207

/-- `HTTPStatus.OK`. -/
def OK : Nat := 200

/-- `insert_ttl` (`deta_base/utils.py`).  The ambient clock
`datetime.now()` is the explicit argument `now`. -/
def insert_ttl (now : DateTime) (item : Item)
    (expires_at : Option ExpireAt) (expires_in : Option ExpireIn) : Item :=
  match expires_at with
  | some ea =>
      let v : ℚ :=
        match ea with
        | .dt d => (d.replaceMicrosecond 0).timestamp
        | .int n => (n : ℚ)
        | .float q => q
      dictSet item TTL_ATTRIBUTE (.num v)
  | none =>
      match expires_in with
      | some ei =>
          let delta : TimeDelta :=
            match ei with
            | .td t => t
            | .int n => timedeltaOfSeconds (n : ℚ)
            | .float q => timedeltaOfSeconds q
          let ea := now.addDelta delta
          dictSet item TTL_ATTRIBUTE (.num ((ea.replaceMicrosecond 0).timestamp))
      | none => item

/-- Python `str.split(sep)` for a single-character separator, on the
character list: splits at every occurrence of the separator, keeping
empty pieces (`''.split('_') == ['']`, `'_'.split('_') == ['', '']`). -/
def splitChars (sep : Char) : List Char → List (List Char)
  | [] => [[]]
  | c :: rest =>
      let r := splitChars sep rest
      if c = sep then [] :: r
      else
        match r with
        | [] => [[c]]
        | w :: ws => (c :: w) :: ws

/-- Python `s.split(sep)` for a one-character separator. -/
def pySplit (s : String) (sep : Char) : List String :=
  (splitChars sep s.toList).map (fun cs => String.mk cs)

/-- `parse_data_key` (`deta_py/utils.py`): `data_key.split('_')` followed
by unpacking into exactly two components; the `ValueError` raised by a
failed unpacking is modelled as `none`. -/
def parse_data_key (data_key : String) : Option (String × String) :=
  match pySplit data_key '_' with
  | [project_id, project_key] => some (project_id, project_key)
  | _ => none

/-- `BASE_API_URL.format(project_id=..., base_name=...)`. -/
def BASE_API_URL (project_id base_name : String) : String :=
  "https://database.deta.sh/v1/" ++ project_id ++ "/" ++ base_name

/-- The state a successfully constructed `DetaBase`/`AsyncDetaBase`
client holds (the fields `__init__` assigns, minus the HTTP session). -/
structure ClientState where
  data_key : String
  base_name : String
  base_url : String
deriving DecidableEq

/-- `DetaBase.__init__` / `AsyncDetaBase.__init__`: parses the data key
and builds the base URL; a parse failure propagates (`none`). -/
def clientInit (data_key base_name : String) : Option ClientState :=
  match parse_data_key data_key with
  | some (project_id, _) =>
      some ⟨data_key, base_name, BASE_API_URL project_id base_name⟩
  | none => none

/-- The update-operation builder `ItemUpdate` (`deta_base/queries.py`).
Python mutates the builder in place; the embedding passes the state
explicitly, each operation returning the updated builder (Python returns
`self` for chaining). -/
structure ItemUpdate where
  _set : Dict Val
  _increment : Dict ℚ
  _append : Dict (List Val)
  _delete : List String
deriving DecidableEq

/-- `ItemUpdate.__init__`: all four categories start empty. -/
def ItemUpdate.init : ItemUpdate := ⟨[], [], [], []⟩

/-- `ItemUpdate.set(**kwargs)`: `self._set.update(kwargs)`. -/
def ItemUpdate.set (u : ItemUpdate) (kwargs : Dict Val) : ItemUpdate :=
  { u with _set := dictUpdate u._set kwargs }

/-- `ItemUpdate.increment(**kwargs)`: `self._increment.update(kwargs)`. -/
def ItemUpdate.increment (u : ItemUpdate) (kwargs : Dict ℚ) : ItemUpdate :=
  { u with _increment := dictUpdate u._increment kwargs }

/-- `ItemUpdate.append(**kwargs)`: `self._append.update(kwargs)`. -/
def ItemUpdate.append (u : ItemUpdate) (kwargs : Dict (List Val)) : ItemUpdate :=
  { u with _append := dictUpdate u._append kwargs }

/-- `ItemUpdate.delete(*args)`: `self._delete.extend(args)`. -/
def ItemUpdate.delete (u : ItemUpdate) (args : List String) : ItemUpdate :=
  { u with _delete := u._delete ++ args }

/-- The serialized `PATCH /items/{key}` request body built by
`ItemUpdate.as_json`. -/
structure UpdateBody where
  set : Dict Val
  increment : Dict ℚ
  append : Dict (List Val)
  delete : List String
deriving DecidableEq

/-- `ItemUpdate.as_json`. -/
def ItemUpdate.as_json (u : ItemUpdate) : UpdateBody :=
  ⟨u._set, u._increment, u._append, u._delete⟩

/-- Response to a `PUT /items` request, as far as the code reads it:
the status code and, for 207 responses, `data['processed']['items']`. -/
structure PutResponse where
  status : Nat
  processed_items : List Item
deriving DecidableEq

/-- The transport oracle for `PUT /items`: maps the JSON `items` body the
client sends to the response it receives. -/
abbrev PutTransport := List Item → PutResponse

/-- `SimpleQuery = dict[str, Any]` (`deta_base/types.py`). -/
abbrev SimpleQuery := Dict Val

/-- `Query = Union[SimpleQuery, list[SimpleQuery]]`. -/
inductive Query where
  | simple (q : SimpleQuery)
  | queries (qs : List SimpleQuery)
deriving DecidableEq

/-- The JSON body of a `POST /query` request:
`{'query': ..., 'limit': ..., 'last': ...}`. -/
structure QueryRequest where
  query : Option (List SimpleQuery)
  limit : Int
  last : Option String
deriving DecidableEq

/-- Response to a `POST /query` request, as far as the code reads it. -/
structure QueryResponse where
  status : Nat
  items : List Item
  paging_size : Nat
  paging_last : Option String
deriving DecidableEq

/-- The transport oracle for `POST /query`. -/
abbrev QueryTransport := QueryRequest → QueryResponse

/-- `QueryResult` (`deta_base/queries.py` / `deta_base/results.py`). -/
structure QueryResult where
  items : List Item
  count : Nat
  last : Option String
deriving DecidableEq

/-- Response to a `PATCH /items/{key}` request: only the status is read. -/
structure UpdateResponse where
  status : Nat
deriving DecidableEq

/-- The transport oracle for `PATCH /items/{key}`: key and body to
response. -/
abbrev UpdateTransport := String → UpdateBody → UpdateResponse

/-- The `isinstance(query, dict)` wrapping at the top of
`DetaBase.query` / `AsyncDetaBase.query`: a single condition mapping is
wrapped into a one-element list before transmission. -/
def normalizeQuery (q : Option Query) : Option (List SimpleQuery) :=
  match q with
  | some (.simple d) => some [d]
  | some (.queries qs) => some qs
  | none => none

namespace DetaBase

/-- `DetaBase._put_batch` (`deta_base/base.py`): apply the TTL inserter
to every item, issue one `PUT /items` request, and return
`data['processed']['items']` on 207, the empty list otherwise. -/
def put_batch (transport : PutTransport) (now : DateTime)
    (batch_items : List Item)
    (expire_at : Option ExpireAt) (expire_in : Option ExpireIn) : List Item :=
  let body := batch_items.map (fun it => insert_ttl now it expire_at expire_in)
  let response := transport body
  if response.status = MULTI_STATUS then response.processed_items else []

/-- `DetaBase.put` (`deta_base/base.py`): the `while items:` loop taking
`items[:ITEMS_BATCH_SIZE]` per iteration.  Instrumented: the second
component counts the write requests issued. -/
def put (transport : PutTransport) (now : DateTime) (items : List Item)
    (expire_at : Option ExpireAt) (expire_in : Option ExpireIn) :
    List Item × Nat :=
  if h : items = [] then ([], 0)
  else
    let batch_items := items.take ITEMS_BATCH_SIZE
    let rest := items.drop ITEMS_BATCH_SIZE
    let batch_processed := put_batch transport now batch_items expire_at expire_in
    let restResult := put transport now rest expire_at expire_in
    (batch_processed ++ restResult.1, restResult.2 + 1)
termination_by items.length
decreasing_by
  have hlen : items.length ≠ 0 := fun hl => h (List.eq_nil_of_length_eq_zero hl)
  simp [List.length_drop, ITEMS_BATCH_SIZE]
  omega

/-- `DetaBase.query` (`deta_base/base.py`). -/
def query (transport : QueryTransport) (q : Option Query)
    (limit : Int) (last : Option String) : QueryResult :=
  let response := transport ⟨normalizeQuery q, limit, last⟩
  if response.status = OK then
    ⟨response.items, response.paging_size, response.paging_last⟩
  else
    ⟨[], 0, none⟩

/-- `DetaBase.update` (`deta_base/base.py`):
`operations.set(**insert_ttl({}, expire_at, expire_in))`, then one
`PATCH` request.  Python mutates `operations` in place; the embedding
returns the success flag together with the mutated builder. -/
def update (transport : UpdateTransport) (now : DateTime)
    (key : String) (operations : ItemUpdate)
    (expire_at : Option ExpireAt) (expire_in : Option ExpireIn) :
    Bool × ItemUpdate :=
  let operations := operations.set (insert_ttl now [] expire_at expire_in)
  let response := transport key operations.as_json
  (response.status = OK, operations)

end DetaBase

namespace AsyncDetaBase

/-- `AsyncDetaBase._put_batch` (`deta_base/async_base.py`); the
suspension point at the transport call is the oracle application. -/
def put_batch (transport : PutTransport) (now : DateTime)
    (batch_items : List Item)
    (expire_at : Option ExpireAt) (expire_in : Option ExpireIn) : List Item :=
  let body := batch_items.map (fun it => insert_ttl now it expire_at expire_in)
  let response := transport body
  if response.status = MULTI_STATUS then response.processed_items else []

/-- `AsyncDetaBase.put` (`deta_base/async_base.py`), instrumented with
the request count like `DetaBase.put`. -/
def put (transport : PutTransport) (now : DateTime) (items : List Item)
    (expire_at : Option ExpireAt) (expire_in : Option ExpireIn) :
    List Item × Nat :=
  if h : items = [] then ([], 0)
  else
    let batch_items := items.take ITEMS_BATCH_SIZE
    let rest := items.drop ITEMS_BATCH_SIZE
    let batch_processed := put_batch transport now batch_items expire_at expire_in
    let restResult := put transport now rest expire_at expire_in
    (batch_processed ++ restResult.1, restResult.2 + 1)
termination_by items.length
decreasing_by
  have hlen : items.length ≠ 0 := fun hl => h (List.eq_nil_of_length_eq_zero hl)
  simp [List.length_drop, ITEMS_BATCH_SIZE]
  omega

/-- `AsyncDetaBase.update` (`deta_base/async_base.py`). -/
def update (transport : UpdateTransport) (now : DateTime)
    (key : String) (operations : ItemUpdate)
    (expire_at : Option ExpireAt) (expire_in : Option ExpireIn) :
    Bool × ItemUpdate :=
  let operations := operations.set (insert_ttl now [] expire_at expire_in)
  let response := transport key operations.as_json
  (response.status = OK, operations)

end AsyncDetaBase

/-- Specification-side chunking: the consecutive `ITEMS_BATCH_SIZE`-sized
chunks the `while items:` loop walks through, in order. -/
def chunksOfItems (items : List Item) : List (List Item) :=
  if items = [] then []
  else items.take ITEMS_BATCH_SIZE :: chunksOfItems (items.drop ITEMS_BATCH_SIZE)
termination_by items.length
decreasing_by
  rename_i h
  have hlen : items.length ≠ 0 := fun hl => h (List.eq_nil_of_length_eq_zero hl)
  simp [List.length_drop, ITEMS_BATCH_SIZE]
  omega

/-! ## Helper lemmas -/

/-- Unfolding `DetaBase.put` on the empty sequence. -/
theorem DetaBase.put_nil (t : PutTransport) (now : DateTime)
    (ea : Option ExpireAt) (ei : Option ExpireIn) :
    DetaBase.put t now [] ea ei = ([], 0) := by
  rw [DetaBase.put]
  simp

/-- Unfolding `DetaBase.put` on a non-empty sequence: one batch is taken
off the front and the loop continues on the rest. -/
theorem DetaBase.put_ne_nil (t : PutTransport) (now : DateTime)
    (ea : Option ExpireAt) (ei : Option ExpireIn) (items : List Item)
    (h : items ≠ []) :
    DetaBase.put t now items ea ei =
      (DetaBase.put_batch t now (items.take ITEMS_BATCH_SIZE) ea ei
          ++ (DetaBase.put t now (items.drop ITEMS_BATCH_SIZE) ea ei).1,
        (DetaBase.put t now (items.drop ITEMS_BATCH_SIZE) ea ei).2 + 1) := by
  rw [DetaBase.put]
  simp [h]

/-- Unfolding `AsyncDetaBase.put` on the empty sequence. -/
theorem AsyncDetaBase.async_put_nil (t : PutTransport) (now : DateTime)
    (ea : Option ExpireAt) (ei : Option ExpireIn) :
    AsyncDetaBase.put t now [] ea ei = ([], 0) := by
  rw [AsyncDetaBase.put]
  simp

/-- Unfolding `AsyncDetaBase.put` on a non-empty sequence. -/
theorem AsyncDetaBase.async_put_ne_nil (t : PutTransport) (now : DateTime)
    (ea : Option ExpireAt) (ei : Option ExpireIn) (items : List Item)
    (h : items ≠ []) :
    AsyncDetaBase.put t now items ea ei =
      (AsyncDetaBase.put_batch t now (items.take ITEMS_BATCH_SIZE) ea ei
          ++ (AsyncDetaBase.put t now (items.drop ITEMS_BATCH_SIZE) ea ei).1,
        (AsyncDetaBase.put t now (items.drop ITEMS_BATCH_SIZE) ea ei).2 + 1) := by
  rw [AsyncDetaBase.put]
  simp [h]

/-- Unfolding `chunksOfItems` on the empty sequence. -/
theorem chunksOfItems_nil : chunksOfItems [] = [] := by
  rw [chunksOfItems]
  simp

/-- Unfolding `chunksOfItems` on a non-empty sequence. -/
theorem chunksOfItems_ne_nil (items : List Item) (h : items ≠ []) :
    chunksOfItems items =
      items.take ITEMS_BATCH_SIZE :: chunksOfItems (items.drop ITEMS_BATCH_SIZE) := by
  rw [chunksOfItems]
  simp [h]

/-- A non-empty sequence of at most one batch is a single chunk. -/
theorem chunksOfItems_single (items : List Item) (h : items ≠ [])
    (hle : items.length ≤ ITEMS_BATCH_SIZE) :
    chunksOfItems items = [items] := by
  rw [chunksOfItems_ne_nil items h, List.take_of_length_le hle,
    List.drop_eq_nil_of_le hle, chunksOfItems_nil]

/-- Dropping a batch from a non-empty list strictly shrinks it. -/
theorem length_drop_batch_lt (items : List Item) (h : items ≠ []) :
    (items.drop ITEMS_BATCH_SIZE).length < items.length := by
  have hlen : items.length ≠ 0 := fun hl => h (List.eq_nil_of_length_eq_zero hl)
  simp only [List.length_drop, ITEMS_BATCH_SIZE]
  omega

/-- Every chunk has at most `ITEMS_BATCH_SIZE` items. -/
theorem chunksOfItems_length_le (items : List Item) :
    ∀ c ∈ chunksOfItems items, c.length ≤ ITEMS_BATCH_SIZE := by
  have haux : ∀ (n : Nat) (items : List Item), items.length ≤ n →
      ∀ c ∈ chunksOfItems items, c.length ≤ ITEMS_BATCH_SIZE := by
    intro n
    induction n with
    | zero =>
        intro items hle c hc
        have hnil : items = [] := List.eq_nil_of_length_eq_zero (Nat.le_zero.mp hle)
        rw [hnil, chunksOfItems_nil] at hc
        exact absurd hc (List.not_mem_nil c)
    | succ n ih =>
        intro items hle c hc
        by_cases hnil : items = []
        · rw [hnil, chunksOfItems_nil] at hc
          exact absurd hc (List.not_mem_nil c)
        · rw [chunksOfItems_ne_nil items hnil] at hc
          rcases List.mem_cons.mp hc with hhd | htl
          · rw [hhd]
            simp [List.length_take]
          · exact ih (items.drop ITEMS_BATCH_SIZE)
              (by have := length_drop_batch_lt items hnil; omega) c htl
  exact haux items.length items le_rfl

/-- The chunks concatenate back to the input, in order. -/
theorem chunksOfItems_flatten (items : List Item) :
    (chunksOfItems items).flatten = items := by
  have haux : ∀ (n : Nat) (items : List Item), items.length ≤ n →
      (chunksOfItems items).flatten = items := by
    intro n
    induction n with
    | zero =>
        intro items hle
        have hnil : items = [] := List.eq_nil_of_length_eq_zero (Nat.le_zero.mp hle)
        rw [hnil, chunksOfItems_nil, List.flatten_nil]
    | succ n ih =>
        intro items hle
        by_cases hnil : items = []
        · rw [hnil, chunksOfItems_nil, List.flatten_nil]
        · rw [chunksOfItems_ne_nil items hnil, List.flatten_cons,
            ih (items.drop ITEMS_BATCH_SIZE)
              (by have := length_drop_batch_lt items hnil; omega),
            List.take_append_drop]
  exact haux items.length items le_rfl

/-- The number of chunks is `⌈length / ITEMS_BATCH_SIZE⌉`. -/
theorem chunksOfItems_count (items : List Item) :
    (chunksOfItems items).length =
      (items.length + ITEMS_BATCH_SIZE - 1) / ITEMS_BATCH_SIZE := by
  have haux : ∀ (n : Nat) (items : List Item), items.length ≤ n →
      (chunksOfItems items).length =
        (items.length + ITEMS_BATCH_SIZE - 1) / ITEMS_BATCH_SIZE := by
    intro n
    induction n with
    | zero =>
        intro items hle
        have hnil : items = [] := List.eq_nil_of_length_eq_zero (Nat.le_zero.mp hle)
        rw [hnil, chunksOfItems_nil]
        simp [ITEMS_BATCH_SIZE]
    | succ n ih =>
        intro items hle
        by_cases hnil : items = []
        · rw [hnil, chunksOfItems_nil]
          simp [ITEMS_BATCH_SIZE]
        · rw [chunksOfItems_ne_nil items hnil, List.length_cons,
            ih (items.drop ITEMS_BATCH_SIZE)
              (by have := length_drop_batch_lt items hnil; omega)]
          have hlen : items.length ≠ 0 :=
            fun hl => hnil (List.eq_nil_of_length_eq_zero hl)
          simp only [List.length_drop, ITEMS_BATCH_SIZE]
          omega
  exact haux items.length items le_rfl

/-- `DetaBase.put` computes, per chunk, exactly `DetaBase.put_batch`, and
concatenates the chunk results in order; the request count is the chunk
count. -/
theorem put_eq_chunks (t : PutTransport) (now : DateTime)
    (ea : Option ExpireAt) (ei : Option ExpireIn) (items : List Item) :
    DetaBase.put t now items ea ei =
      (((chunksOfItems items).map (fun c => DetaBase.put_batch t now c ea ei)).flatten,
        (chunksOfItems items).length) := by
  have haux : ∀ (n : Nat) (items : List Item), items.length ≤ n →
      DetaBase.put t now items ea ei =
        (((chunksOfItems items).map (fun c => DetaBase.put_batch t now c ea ei)).flatten,
          (chunksOfItems items).length) := by
    intro n
    induction n with
    | zero =>
        intro items hle
        have hnil : items = [] := List.eq_nil_of_length_eq_zero (Nat.le_zero.mp hle)
        rw [hnil, DetaBase.put_nil, chunksOfItems_nil]
        simp
    | succ n ih =>
        intro items hle
        by_cases hnil : items = []
        · rw [hnil, DetaBase.put_nil, chunksOfItems_nil]
          simp
        · rw [DetaBase.put_ne_nil t now ea ei items hnil,
            ih (items.drop ITEMS_BATCH_SIZE)
              (by have := length_drop_batch_lt items hnil; omega),
            chunksOfItems_ne_nil items hnil, List.map_cons, List.flatten_cons,
            List.length_cons]
  exact haux items.length items le_rfl

/-- The blocking and the suspendable batch putters agree on every input
once the transport oracle is fixed. -/
theorem putAgree (t : PutTransport) (now : DateTime)
    (ea : Option ExpireAt) (ei : Option ExpireIn) (items : List Item) :
    AsyncDetaBase.put t now items ea ei = DetaBase.put t now items ea ei := by
  have haux : ∀ (n : Nat) (items : List Item), items.length ≤ n →
      AsyncDetaBase.put t now items ea ei = DetaBase.put t now items ea ei := by
    intro n
    induction n with
    | zero =>
        intro items hle
        have hnil : items = [] := List.eq_nil_of_length_eq_zero (Nat.le_zero.mp hle)
        rw [hnil, AsyncDetaBase.async_put_nil, DetaBase.put_nil]
    | succ n ih =>
        intro items hle
        by_cases hnil : items = []
        · rw [hnil, AsyncDetaBase.async_put_nil, DetaBase.put_nil]
        · rw [AsyncDetaBase.async_put_ne_nil t now ea ei items hnil,
            DetaBase.put_ne_nil t now ea ei items hnil,
            ih (items.drop ITEMS_BATCH_SIZE)
              (by have := length_drop_batch_lt items hnil; omega)]
          rfl
  exact haux items.length items le_rfl

/-- After a dict assignment, looking the key up yields the assigned
value (replacement branch). -/
theorem lookup_map_replace (k : String) (v : α) :
    ∀ d : Dict α, d.any (fun p => p.1 = k) = true →
      List.lookup k (d.map (fun p => if p.1 = k then (k, v) else p)) = some v := by
  intro d
  induction d with
  | nil => intro h; simp at h
  | cons p tl ih =>
      intro h
      by_cases hk : p.1 = k
      · simp only [List.map_cons, if_pos hk]
        rw [List.lookup_cons]
        simp
      · simp only [List.map_cons, if_neg hk]
        have htl : tl.any (fun p => p.1 = k) = true := by
          simp only [List.any_cons, Bool.or_eq_true] at h
          rcases h with hh | ht
          · exact absurd (of_decide_eq_true hh) hk
          · exact ht
        rw [List.lookup_cons]
        have hne : (k == p.1) = false :=
          beq_eq_false_iff_ne.mpr (fun hkk => hk hkk.symm)
        rw [hne]
        exact ih htl

/-- After a dict assignment, looking the key up yields the assigned
value. -/
theorem lookup_dictSet (d : Dict α) (k : String) (v : α) :
    List.lookup k (dictSet d k v) = some v := by
  unfold dictSet
  by_cases h : d.any (fun p => p.1 = k) = true
  · rw [if_pos h]
    exact lookup_map_replace k v d h
  · rw [if_neg h]
    have hnot : ∀ p ∈ d, ¬ p.1 = k := by
      intro p hp hpk
      exact h (List.any_eq_true.mpr ⟨p, hp, decide_eq_true hpk⟩)
    induction d with
    | nil => simp [List.lookup]
    | cons p tl ih =>
        rw [List.cons_append, List.lookup_cons]
        have hne : (k == p.1) = false :=
          beq_eq_false_iff_ne.mpr
            (fun hkk => hnot p (List.mem_cons_self p tl) hkk.symm)
        rw [hne]
        exact ih (by
            intro hany
            exact h (by simp only [List.any_cons, Bool.or_eq_true]; exact Or.inr hany))
          (fun q hq => hnot q (List.mem_cons_of_mem p hq))

/-- After a dict assignment, the key is among the dict's keys. -/
theorem mem_keys_dictSet (d : Dict α) (k : String) (v : α) :
    k ∈ (dictSet d k v).map Prod.fst := by
  unfold dictSet
  by_cases h : d.any (fun p => p.1 = k) = true
  · rw [if_pos h]
    obtain ⟨p, hp, hpk⟩ := List.any_eq_true.mp h
    refine List.mem_map.mpr ⟨(k, v), List.mem_map.mpr ⟨p, hp, ?_⟩, rfl⟩
    rw [if_pos (of_decide_eq_true hpk)]
  · rw [if_neg h]
    simp [List.map_append]

/-- Splitting a list that does not contain the separator yields the list
itself as the single piece. -/
theorem splitChars_no_sep (sep : Char) :
    ∀ cs : List Char, sep ∉ cs → splitChars sep cs = [cs] := by
  intro cs
  induction cs with
  | nil => intro _; rfl
  | cons c rest ih =>
      intro h
      have hc : ¬ c = sep := fun he => h (he ▸ List.mem_cons_self c rest)
      unfold splitChars
      rw [if_neg hc, ih (fun hm => h (List.mem_cons_of_mem c hm))]

/-- Truncating the sub-second component and converting to epoch seconds
yields the whole-second part, as a rational. -/
theorem timestamp_truncated (d : DateTime) :
    (d.replaceMicrosecond 0).timestamp = (d.epochSeconds : ℚ) := by
  unfold DateTime.replaceMicrosecond DateTime.timestamp
  norm_num

/-- Looking up the TTL attribute after assigning the truncated timestamp
of a datetime. -/
theorem lookup_dictSet_truncated (item : Item) (d : DateTime) :
    List.lookup TTL_ATTRIBUTE
        (dictSet item TTL_ATTRIBUTE (.num ((d.replaceMicrosecond 0).timestamp)))
      = some (.num ((d.epochSeconds : ℚ))) := by
  rw [timestamp_truncated, lookup_dictSet]

/-! ## Claim theorems -/

/-- C4: for every item mapping, clock value, and trailing TTL parameter,
`insert_ttl` with an absolute `datetime` expiration sets the reserved TTL
field to a value depending only on the whole-second part of the instant:
two instants that differ only in their sub-second components produce
identical results (in particular, `T` and `T` with its sub-second
component zeroed do). -/
theorem insert_ttl_subsecond_normalization (now : DateTime) (item : Item)
    (ei : Option ExpireIn) (d d' : DateTime)
    (h : d.epochSeconds = d'.epochSeconds) :
    insert_ttl now item (some (.dt d)) ei = insert_ttl now item (some (.dt d')) ei := by
  show dictSet item TTL_ATTRIBUTE (.num ((d.replaceMicrosecond 0).timestamp))
      = dictSet item TTL_ATTRIBUTE (.num ((d'.replaceMicrosecond 0).timestamp))
  rw [timestamp_truncated, timestamp_truncated, h]

/-- Witness for C4: an instant with 999999 microseconds and the same
instant truncated to the second normalize identically. -/
theorem insert_ttl_subsecond_normalization_witness :
    insert_ttl ⟨0, 0⟩ [] (some (.dt ⟨1700000000, 999999⟩)) none =
      insert_ttl ⟨0, 0⟩ [] (some (.dt ⟨1700000000, 0⟩)) none :=
  insert_ttl_subsecond_normalization ⟨0, 0⟩ [] none
    ⟨1700000000, 999999⟩ ⟨1700000000, 0⟩ rfl

/-- C5: when both an absolute expiration and a relative duration are
supplied, `insert_ttl` stores the TTL derived from the absolute one: the
relative duration (and the clock, which only the relative branch reads)
has no effect on the result. -/
theorem insert_ttl_absolute_precedence (now now' : DateTime) (item : Item)
    (ea : ExpireAt) (ei : ExpireIn) :
    insert_ttl now item (some ea) (some ei) = insert_ttl now item (some ea) none ∧
    insert_ttl now item (some ea) (some ei) = insert_ttl now' item (some ea) (some ei) :=
  ⟨rfl, rfl⟩

/-- C6 counterexample: a numeric `expires_at` of `3/2` seconds is stored
verbatim in the reserved TTL field, and `3/2` is not a whole number, so
`insert_ttl` does not always set the TTL field to a whole-number
epoch-seconds value. -/
theorem insert_ttl_fractional_float_counterexample :
    List.lookup TTL_ATTRIBUTE
        (insert_ttl ⟨0, 0⟩ [] (some (.float (3/2))) none) = some (.num (3/2)) ∧
    ¬ ∃ n : ℤ, ((3 : ℚ)/2) = (n : ℚ) := by
  constructor
  · rfl
  · rintro ⟨n, hn⟩
    have h3 : (3 : ℚ) = (n : ℚ) * 2 := by
      field_simp at hn
      linarith
    have h4 : (3 : ℤ) = n * 2 := by exact_mod_cast h3
    omega

/-- C6 amended: `insert_ttl` sets the reserved TTL field to a
whole-number epoch-seconds value when the absolute expiration is a
datetime or an integer, and when only a relative duration is supplied; a
numeric (float) absolute expiration is stored verbatim and may carry a
fractional part. -/
theorem insert_ttl_whole_seconds_amended (now : DateTime) (item : Item)
    (ei : Option ExpireIn) :
    (∀ d : DateTime, ∃ n : ℤ,
      List.lookup TTL_ATTRIBUTE (insert_ttl now item (some (.dt d)) ei) =
        some (.num (n : ℚ))) ∧
    (∀ k : ℤ,
      List.lookup TTL_ATTRIBUTE (insert_ttl now item (some (.int k)) ei) =
        some (.num (k : ℚ))) ∧
    (∀ e : ExpireIn, ∃ n : ℤ,
      List.lookup TTL_ATTRIBUTE (insert_ttl now item none (some e)) =
        some (.num (n : ℚ))) := by
  refine ⟨fun d => ⟨d.epochSeconds, lookup_dictSet_truncated item d⟩,
    fun k => lookup_dictSet item TTL_ATTRIBUTE (.num (k : ℚ)), fun e => ?_⟩
  rcases e with tdelta | nn | q
  · exact ⟨(now.addDelta tdelta).epochSeconds,
      lookup_dictSet_truncated item (now.addDelta tdelta)⟩
  · exact ⟨(now.addDelta (timedeltaOfSeconds (nn : ℚ))).epochSeconds,
      lookup_dictSet_truncated item (now.addDelta (timedeltaOfSeconds (nn : ℚ)))⟩
  · exact ⟨(now.addDelta (timedeltaOfSeconds q)).epochSeconds,
      lookup_dictSet_truncated item (now.addDelta (timedeltaOfSeconds q))⟩

/-- C7 counterexample: two `delete` calls for the same field make the
serialized `delete` entry list that field twice, so the delete category
does not behave as a set. -/
theorem item_update_delete_duplicates_counterexample :
    ((ItemUpdate.init.delete ["hobbies"]).delete ["hobbies"]).as_json.delete =
      ["hobbies", "hobbies"] ∧
    ¬ ((((ItemUpdate.init.delete ["hobbies"]).delete
        ["hobbies"]).as_json.delete.count "hobbies") ≤ 1) := by
  constructor
  · rfl
  · decide

/-- C7 amended: the `delete` category of `ItemUpdate` is an ordered
list, not a set: each `delete` call appends its arguments to the list
that `as_json` serializes verbatim, so repeated `delete` calls for the
same field accumulate duplicate entries. -/
theorem item_update_delete_appends (u : ItemUpdate) (args : List String) :
    (u.delete args)._delete = u._delete ++ args ∧
    u.as_json.delete = u._delete :=
  ⟨rfl, rfl⟩

/-- C8 counterexample: `parse_data_key` accepts `"_b"`, returning an
empty project identifier instead of failing, so construction does not
fail on an empty component. -/
theorem parse_data_key_empty_component_counterexample :
    parse_data_key "_b" = some ("", "b") ∧
    ("" : String).length = 0 ∧
    clientInit "_b" "books" ≠ none := by
  refine ⟨by decide, rfl, by decide⟩

/-- C8 amended: `parse_data_key` splits the credential string on its
separator and succeeds exactly when the split yields two components,
which may be empty; it fails (and client construction with it) when the
separator is missing or the split yields any other number of components;
components are not checked for non-emptiness. -/
theorem parse_data_key_two_components_amended (data_key base_name : String) :
    (parse_data_key data_key = none ↔ (pySplit data_key '_').length ≠ 2) ∧
    (∀ a b, parse_data_key data_key = some (a, b) ↔ pySplit data_key '_' = [a, b]) ∧
    ('_' ∉ data_key.toList → parse_data_key data_key = none) ∧
    (clientInit data_key base_name = none ↔ parse_data_key data_key = none) := by
  have hone : '_' ∉ data_key.toList → pySplit data_key '_' = [data_key] := by
    intro hnot
    unfold pySplit
    rw [splitChars_no_sep '_' data_key.toList hnot]
    rfl
  rcases h : pySplit data_key '_' with _ | ⟨a, _ | ⟨b, _ | ⟨c, tl⟩⟩⟩
  · have hp : parse_data_key data_key = none := by
      unfold parse_data_key
      rw [h]
    refine ⟨by simp [hp, h], fun a b => by simp [hp], fun _ => hp, ?_⟩
    unfold clientInit
    rw [hp]
    simp
  · have hp : parse_data_key data_key = none := by
      unfold parse_data_key
      rw [h]
    refine ⟨by simp [hp, h], fun x y => by simp [hp], fun _ => hp, ?_⟩
    unfold clientInit
    rw [hp]
    simp
  · have hp : parse_data_key data_key = some (a, b) := by
      unfold parse_data_key
      rw [h]
    refine ⟨by simp [hp, h], fun x y => by simp [hp, h], ?_, ?_⟩
    · intro hnot
      rw [hone hnot] at h
      simp at h
    · unfold clientInit
      rw [hp]
      simp
  · have hp : parse_data_key data_key = none := by
      unfold parse_data_key
      rw [h]
    refine ⟨by simp [hp, h], fun x y => by simp [hp], fun _ => hp, ?_⟩
    unfold clientInit
    rw [hp]
    simp

/-- Witness for C8 amended: a well-formed credential parses into its two
components. -/
theorem parse_data_key_two_components_witness :
    parse_data_key "abc_def" = some ("abc", "def") :=
  ((parse_data_key_two_components_amended "abc_def" "books").2.1 "abc" "def").mpr
    (by decide)

/-- A sample transport whose responses echo every request body as
processed, with the 207 Multi-Status code. -/
def echoPutTransport : PutTransport := fun body => ⟨MULTI_STATUS, body⟩

/-- A sample transport that always fails with status 400 Bad Request. -/
def failPutTransport : PutTransport := fun _ => ⟨400, []⟩

/-- A sample query transport that always fails with status 500. -/
def failQueryTransport : QueryTransport :=
  fun _ => ⟨500, [[("a", Val.str "x")]], 3, some "cursor"⟩

/-- A sample update transport that always reports 200 OK. -/
def okUpdateTransport : UpdateTransport := fun _ _ => ⟨OK⟩

/-- C1: for every input sequence, transport oracle, clock, and TTL
parameters, `DetaBase.put` partitions the input into consecutive chunks
of at most 25 items whose concatenation is the input, issues exactly
`ceil(N/25)` write requests (zero requests and an empty result when
`N = 0`), returns the concatenation of the per-chunk processed lists in
chunk order, and preserves input order within and across chunks whenever
each chunk's response reports its items in request order. -/
theorem put_partitions_into_chunks (t : PutTransport) (now : DateTime)
    (ea : Option ExpireAt) (ei : Option ExpireIn) (items : List Item) :
    (∀ c ∈ chunksOfItems items, c.length ≤ ITEMS_BATCH_SIZE) ∧
    (chunksOfItems items).flatten = items ∧
    (DetaBase.put t now items ea ei).2 =
      (items.length + ITEMS_BATCH_SIZE - 1) / ITEMS_BATCH_SIZE ∧
    (items = [] → DetaBase.put t now items ea ei = ([], 0)) ∧
    (DetaBase.put t now items ea ei).1 =
      ((chunksOfItems items).map (fun c => DetaBase.put_batch t now c ea ei)).flatten ∧
    ((∀ c ∈ chunksOfItems items,
        (t (c.map (fun it => insert_ttl now it ea ei))).status = MULTI_STATUS ∧
        (t (c.map (fun it => insert_ttl now it ea ei))).processed_items =
          c.map (fun it => insert_ttl now it ea ei)) →
      (DetaBase.put t now items ea ei).1 =
        items.map (fun it => insert_ttl now it ea ei)) := by
  refine ⟨chunksOfItems_length_le items, chunksOfItems_flatten items, ?_, ?_, ?_, ?_⟩
  · rw [put_eq_chunks]
    exact chunksOfItems_count items
  · intro hnil
    rw [hnil, DetaBase.put_nil]
  · rw [put_eq_chunks]
  · intro hall
    have hbatches : ∀ c ∈ chunksOfItems items,
        DetaBase.put_batch t now c ea ei =
          List.map (fun it => insert_ttl now it ea ei) c := by
      intro c hc
      unfold DetaBase.put_batch
      simp [(hall c hc).1, (hall c hc).2]
    rw [put_eq_chunks]
    show ((chunksOfItems items).map (fun c => DetaBase.put_batch t now c ea ei)).flatten
        = items.map (fun it => insert_ttl now it ea ei)
    conv_rhs => rw [← chunksOfItems_flatten items, List.map_flatten]
    exact congrArg List.flatten (List.map_congr_left hbatches)

/-- Witness for C1: two items, one chunk, echo transport (whose response
reports the items in request order); no TTL parameters, so the processed
list is the input itself. -/
theorem put_partitions_into_chunks_witness :
    (DetaBase.put echoPutTransport ⟨0, 0⟩
        [[("key", Val.str "1")], [("key", Val.str "2")]] none none).1 =
      [[("key", Val.str "1")], [("key", Val.str "2")]] := by
  have hch : chunksOfItems [[("key", Val.str "1")], [("key", Val.str "2")]] =
      [[[("key", Val.str "1")], [("key", Val.str "2")]]] :=
    chunksOfItems_single _ (by simp) (by simp [ITEMS_BATCH_SIZE])
  have h := (put_partitions_into_chunks echoPutTransport ⟨0, 0⟩ none none
      [[("key", Val.str "1")], [("key", Val.str "2")]]).2.2.2.2.2
  rw [h]
  · rfl
  · intro c hc
    rw [hch] at hc
    rcases List.mem_cons.mp hc with hc1 | hc2
    · subst hc1
      exact ⟨rfl, rfl⟩
    · exact absurd hc2 (List.not_mem_nil c)

/-- C2: a chunk of a `put` call whose write request returns any status
other than 207 Multi-Status contributes exactly the empty list to the
result, no error is raised (the putter is a total function), and the
overall result is still the in-order concatenation of all per-chunk
results, so the remaining chunks are unaffected. -/
theorem put_batch_failure_contributes_nothing (t : PutTransport) (now : DateTime)
    (ea : Option ExpireAt) (ei : Option ExpireIn) (items c : List Item)
    (_hc : c ∈ chunksOfItems items)
    (hfail : (t (c.map (fun it => insert_ttl now it ea ei))).status ≠ MULTI_STATUS) :
    DetaBase.put_batch t now c ea ei = [] ∧
    (DetaBase.put t now items ea ei).1 =
      ((chunksOfItems items).map (fun ch => DetaBase.put_batch t now ch ea ei)).flatten := by
  constructor
  · unfold DetaBase.put_batch
    simp [hfail]
  · rw [put_eq_chunks]

/-- Witness for C2: a one-chunk input against a transport that always
answers 400; the failed chunk yields the empty list. -/
theorem put_batch_failure_contributes_nothing_witness :
    DetaBase.put_batch failPutTransport ⟨0, 0⟩ [[("key", Val.str "1")]] none none = [] :=
  (put_batch_failure_contributes_nothing failPutTransport ⟨0, 0⟩ none none
      [[("key", Val.str "1")]] [[("key", Val.str "1")]]
      (by
        rw [chunksOfItems_single _ (by simp) (by simp [ITEMS_BATCH_SIZE])]
        exact List.mem_singleton_self _)
      (by decide)).1

/-- C3: for every query call (any filter, limit, and cursor), if the
transport returns any status other than 200 OK, `DetaBase.query` returns
a `QueryResult` with an empty items list, count 0, and a null cursor,
raising no error (the function is total). -/
theorem query_failure_returns_empty (t : QueryTransport) (q : Option Query)
    (limit : Int) (last : Option String)
    (h : (t ⟨normalizeQuery q, limit, last⟩).status ≠ OK) :
    DetaBase.query t q limit last = ⟨[], 0, none⟩ := by
  unfold DetaBase.query
  simp [h]

/-- Witness for C3: a transport answering 500 with a non-empty payload
still yields the empty `QueryResult`. -/
theorem query_failure_returns_empty_witness :
    DetaBase.query failQueryTransport none 1000 none = ⟨[], 0, none⟩ :=
  query_failure_returns_empty failQueryTransport none 1000 none (by decide)

/-- C9: the blocking and suspendable batch putters are observationally
equivalent: for every input sequence, TTL parameters, and fixed mapping
from chunk request to transport response, `AsyncDetaBase.put` and
`DetaBase.put` return the same processed list (and request count), and
their chunk writers agree; result order corresponds to chunk order in
both modes since they are one function. -/
theorem async_put_equals_sync_put (t : PutTransport) (now : DateTime)
    (ea : Option ExpireAt) (ei : Option ExpireIn) (items batch : List Item) :
    AsyncDetaBase.put t now items ea ei = DetaBase.put t now items ea ei ∧
    AsyncDetaBase.put_batch t now batch ea ei = DetaBase.put_batch t now batch ea ei :=
  ⟨putAgree t now ea ei items, rfl⟩

/-- C10: `update` (blocking and suspendable alike) mutates the caller's
builder: with a non-null `expire_at` or `expire_in`, the builder it
hands back has the reserved TTL field in its `set` category, so any
later serialization of the same builder includes that field; with
neither parameter supplied the builder is left unchanged. -/
theorem update_mutates_builder (t : UpdateTransport) (now : DateTime)
    (key : String) (u : ItemUpdate) (ea : Option ExpireAt) (ei : Option ExpireIn) :
    (¬ (ea = none ∧ ei = none) →
      TTL_ATTRIBUTE ∈ (DetaBase.update t now key u ea ei).2.as_json.set.map Prod.fst ∧
      TTL_ATTRIBUTE ∈ (AsyncDetaBase.update t now key u ea ei).2.as_json.set.map Prod.fst) ∧
    (ea = none → ei = none →
      (DetaBase.update t now key u ea ei).2 = u ∧
      (AsyncDetaBase.update t now key u ea ei).2 = u) := by
  constructor
  · intro hne
    have hval : ∃ v : ℚ, insert_ttl now [] ea ei = [(TTL_ATTRIBUTE, Val.num v)] := by
      rcases ea with _ | ea'
      · rcases ei with _ | e
        · exact absurd ⟨rfl, rfl⟩ hne
        · exact ⟨_, rfl⟩
      · rcases ea' with d | n | q
        · exact ⟨_, rfl⟩
        · exact ⟨_, rfl⟩
        · exact ⟨_, rfl⟩
    obtain ⟨v, hv⟩ := hval
    constructor
    · show TTL_ATTRIBUTE ∈ ((u.set (insert_ttl now [] ea ei)).as_json.set.map Prod.fst)
      rw [hv]
      exact mem_keys_dictSet u._set TTL_ATTRIBUTE (Val.num v)
    · show TTL_ATTRIBUTE ∈ ((u.set (insert_ttl now [] ea ei)).as_json.set.map Prod.fst)
      rw [hv]
      exact mem_keys_dictSet u._set TTL_ATTRIBUTE (Val.num v)
  · intro hea hei
    subst hea
    subst hei
    exact ⟨rfl, rfl⟩

/-- Witness for C10: updating with an absolute integer expiration puts
the reserved TTL field into the builder's `set` category. -/
theorem update_mutates_builder_witness :
    TTL_ATTRIBUTE ∈ (DetaBase.update okUpdateTransport ⟨0, 0⟩ "k" ItemUpdate.init
        (some (.int 5)) none).2.as_json.set.map Prod.fst :=
  ((update_mutates_builder okUpdateTransport ⟨0, 0⟩ "k" ItemUpdate.init
      (some (.int 5)) none).1 (by simp)).1

end DetaPy
